import Mathlib

/-!
Shallow embedding of the axiom repository (terminal-based IDE shell with a web
frontend) for checking its natural-language specification.

The embedded modules:
* `WsClient`   — src/web/src/lib/api/websocket.ts (AxiomWebSocket)
* `Actions`    — src/web/src/app/actions/agent.ts and terminal.ts
* `LlmApi`     — src/unnamed/part_004 (chatCompletion and workspace config)
* `Studio`     — src/unnamed/part_005 (handleSendMessage routing)
* `Registry`   — the Agent Registry, modelled from the spec (backend not in src/)
* `Term`       — the PTY terminal-emulation parser, modelled from the spec
-/

namespace WsClient

/-- The Command union sent to the backend over the WebSocket
(src/web/src/lib/api/types.ts and src/unnamed/part_003). -/
inductive Command
  | processInput (text : String)
  | executeShell (command : String)
  | invokeCliAgent (agentId prompt : String)
  | sendPtyInput (agentId : String) (data : List Nat)
  | resizePty (agentId : String) (cols rows : Nat)
  | readFile (path : String)
  | writeFile (path content : String)
  | cancelAgent (agentId : String)
  | listWorkspaces
  | createWorkspace (name path : String)
  | deleteWorkspace (workspaceId : String)
  | activateWorkspace (workspaceId : String)
  | listFiles (path : String) (includeHidden : Bool)
deriving DecidableEq, Repr

/-- State of one AxiomWebSocket client (src/web/src/lib/api/websocket.ts).
`wsOpen` models `this.ws?.readyState === WebSocket.OPEN`; `reconnect` is
`this.options.reconnect`; `messageQueue` is `this.messageQueue`; `transmitted`
is the ghost log of `this.ws.send(...)` calls, in call order. -/
structure WSState where
  wsOpen : Bool
  reconnect : Bool
  messageQueue : List Command
  transmitted : List Command
deriving DecidableEq, Repr

/-- AxiomWebSocket.send: transmit immediately when the socket is open
(returning true), otherwise queue the command when reconnect is enabled;
returns false whenever the command was not transmitted. -/
def send (c : Command) (s : WSState) : Bool × WSState :=
  if s.wsOpen then
    (true, { s with transmitted := s.transmitted ++ [c] })
  else if s.reconnect then
    (false, { s with messageQueue := s.messageQueue ++ [c] })
  else
    (false, s)

/-- A sequence of send calls by one client, in program order. -/
def sendAll (cs : List Command) (s : WSState) : WSState :=
  cs.foldl (fun t c => (send c t).2) s

/-- AxiomWebSocket.flushMessageQueue, with explicit fuel: while the queue is
nonempty, shift the front command and pass it to send. Returns none when the
fuel runs out with the queue still nonempty. -/
def flushFuel : Nat → WSState → Option WSState
  | 0, s => if s.messageQueue.isEmpty then some s else none
  | n + 1, s =>
    match s.messageQueue with
    | [] => some s
    | c :: rest => flushFuel n (send c { s with messageQueue := rest }).2

/-- The flushMessageQueue loop terminates from state s: some fuel suffices. -/
def flushTerminates (s : WSState) : Prop :=
  ∃ n t, flushFuel n s = some t

/-- Reconnection bookkeeping of AxiomWebSocket: `reconnectAttempts` field and
the `reconnectInterval` / `maxReconnectAttempts` options. -/
structure ReconnState where
  reconnectAttempts : Nat
  maxReconnectAttempts : Nat
  reconnectInterval : Nat
deriving DecidableEq, Repr

/-- AxiomWebSocket.scheduleReconnect: does nothing once the attempt counter
reached the limit; otherwise schedules an attempt delayed by
reconnectInterval * 2 ^ reconnectAttempts ms and increments the counter.
Returns the scheduled delay, if any. -/
def scheduleReconnect (s : ReconnState) : Option Nat × ReconnState :=
  if s.maxReconnectAttempts ≤ s.reconnectAttempts then
    (none, s)
  else
    (some (s.reconnectInterval * 2 ^ s.reconnectAttempts),
     { s with reconnectAttempts := s.reconnectAttempts + 1 })

/-- The ws.onopen handler resets the attempt counter to zero. -/
def onOpenReset (s : ReconnState) : ReconnState :=
  { s with reconnectAttempts := 0 }

/-- Iterated scheduleReconnect (state part only). -/
def schedN (s : ReconnState) : Nat → ReconnState
  | 0 => s
  | n + 1 => (scheduleReconnect (schedN s n)).2

end WsClient

namespace Actions

/-- JavaScript string-or-default: `s || d` where an empty string is falsy. -/
def jsOr (s d : String) : String :=
  if s = "" then d else s

/-- JavaScript truthiness of an optional string field (absent or empty is falsy). -/
def jsTruthy : Option String → Bool
  | some s => s != ""
  | none => false

/-- Backend response of axiomApi.orchestrate, as read by orchestrateAction. -/
structure OrchResponse where
  next_agent : String
  reasoning : String
  task : Option String
  error : Option String
deriving DecidableEq, Repr

/-- OrchestratorDecision (src/web/src/app/actions/agent.ts); nextAgent is an
AgentRole or the literal string user. -/
structure OrchestratorDecision where
  nextAgent : String
  reasoning : String
  task : Option String
deriving DecidableEq, Repr

/-- The catch block of orchestrateAction: fall back to a user decision whose
task is the error message (or a default when the message is empty). -/
def orchFallback (msg : String) : OrchestratorDecision :=
  { nextAgent := "user"
    reasoning := "Error occurred during orchestration"
    task := some (jsOr msg "An error occurred. Please try again.") }

/-- orchestrateAction (src/web/src/app/actions/agent.ts): the backend call is
passed in as an Except value (error = the thrown exception message). A truthy
response.error field is re-thrown inside the try and lands in the same catch. -/
def orchestrateAction (resp : Except String OrchResponse) : OrchestratorDecision :=
  match resp with
  | .error e => orchFallback e
  | .ok r =>
    if jsTruthy r.error then orchFallback (r.error.getD "")
    else { nextAgent := r.next_agent, reasoning := r.reasoning, task := r.task }

/-- One operation in the backend developer response (field `type` is rendered
as `ty`, a reserved word in Lean). -/
structure DevOpResp where
  ty : String
  path : Option String
  content : Option String
  command : Option String
  success : Option Bool
  error : Option String
deriving DecidableEq, Repr

/-- AgentOperation produced by developerAction (content is not copied over). -/
structure AgentOperation where
  ty : String
  path : Option String
  command : Option String
  success : Option Bool
  error : Option String
deriving DecidableEq, Repr

/-- Backend response of axiomApi.runDeveloper. -/
structure DevResponse where
  reasoning : String
  operations : List DevOpResp
  message : String
  error : Option String
deriving DecidableEq, Repr

/-- DeveloperResponse (src/web/src/app/actions/agent.ts). -/
structure DeveloperResponse where
  reasoning : String
  operations : List AgentOperation
  message : String
deriving DecidableEq, Repr

/-- The catch block of developerAction: empty operations list. -/
def devFallback (msg : String) : DeveloperResponse :=
  { reasoning := "Failed to execute developer agent"
    operations := []
    message := jsOr msg "An error occurred. Please try again." }

/-- developerAction (src/web/src/app/actions/agent.ts). -/
def developerAction (resp : Except String DevResponse) : DeveloperResponse :=
  match resp with
  | .error e => devFallback e
  | .ok r =>
    if jsTruthy r.error then devFallback (r.error.getD "")
    else
      { reasoning := r.reasoning
        operations := r.operations.map (fun op =>
          { ty := op.ty, path := op.path, command := op.command
            success := op.success, error := op.error })
        message := r.message }

/-- Backend result of axiomApi.runCommand. -/
structure BackendCmdResult where
  stdout : String
  stderr : String
  exit_code : Int
deriving DecidableEq, Repr

/-- CommandResult (src/web/src/app/actions/terminal.ts). -/
structure CommandResult where
  stdout : String
  stderr : String
  exitCode : Int
deriving DecidableEq, Repr

/-- runCommandAction (src/web/src/app/actions/terminal.ts): on failure, empty
stdout, the error message as stderr, exit code 1. -/
def runCommandAction (resp : Except String BackendCmdResult) : CommandResult :=
  match resp with
  | .error e =>
    { stdout := "", stderr := jsOr e "Command execution failed", exitCode := 1 }
  | .ok r => { stdout := r.stdout, stderr := r.stderr, exitCode := r.exit_code }

end Actions

namespace LlmApi

/-- LLMProvider (src/unnamed/part_004, workspace-config). -/
structure LLMProvider where
  id : String
  name : String
  apiKey : String
  baseUrl : Option String
  defaultModel : String
  enabled : Bool
deriving DecidableEq, Repr

/-- AgentMapping (src/unnamed/part_004). -/
structure AgentMapping where
  agentId : String
  providerId : String
  modelId : String
deriving DecidableEq, Repr

/-- The llmSettings part of AppConfig. -/
structure LLMSettings where
  providers : List LLMProvider
  agentMappings : List AgentMapping
deriving DecidableEq, Repr

/-- The outbound provider call chatCompletion dispatches to (the four call
helpers of src/unnamed/part_004, abstracted to the request they make). -/
inductive ProviderCall
  | openai (apiKey model : String) (baseUrl : Option String)
  | anthropic (apiKey model : String)
  | gemini (apiKey model : String)
  | ollama (baseUrl model : String)
deriving DecidableEq, Repr

/-- The provider a call goes to. -/
def ProviderCall.provider : ProviderCall → String
  | .openai .. => "openai"
  | .anthropic .. => "anthropic"
  | .gemini .. => "gemini"
  | .ollama .. => "ollama"

/-- The model id a call carries. -/
def ProviderCall.model : ProviderCall → String
  | .openai _ m _ => m
  | .anthropic _ m => m
  | .gemini _ m => m
  | .ollama _ m => m

/-- chatCompletion (src/unnamed/part_004): resolve the agent mapping and
provider from the settings, validate them, then dispatch on provider.id.
Making the provider call is abstracted to returning the ProviderCall value. -/
def chatCompletion (settings : LLMSettings) (agentId : String) :
    Except String ProviderCall :=
  match settings.agentMappings.find? (fun m => m.agentId == agentId) with
  | none => .error ("No mapping found for agent: " ++ agentId)
  | some mapping =>
    match settings.providers.find? (fun p => p.id == mapping.providerId) with
    | none => .error ("Provider " ++ mapping.providerId ++ " is not configured or enabled")
    | some provider =>
      if !provider.enabled || provider.apiKey == "" then
        .error ("Provider " ++ mapping.providerId ++ " is not configured or enabled")
      else
        let modelId := if mapping.modelId == "" then provider.defaultModel else mapping.modelId
        if provider.id == "openai" then
          .ok (.openai provider.apiKey modelId provider.baseUrl)
        else if provider.id == "anthropic" then
          .ok (.anthropic provider.apiKey modelId)
        else if provider.id == "gemini" then
          .ok (.gemini provider.apiKey modelId)
        else if provider.id == "ollama" then
          .ok (.ollama (provider.baseUrl.getD "http://localhost:11434") modelId)
        else
          .error ("Unsupported provider: " ++ provider.id)

/-- The condition under which the specification says chatCompletion must throw
without making a provider call, written from the claim for comparison: no
mapping for the agent, or the mapped provider entry absent, disabled or with
an empty API key, or a provider id outside the four supported ones. -/
def rejectsPerSpec (settings : LLMSettings) (agentId : String) : Bool :=
  match settings.agentMappings.find? (fun m => m.agentId == agentId) with
  | none => true
  | some mapping =>
    match settings.providers.find? (fun p => p.id == mapping.providerId) with
    | none => true
    | some provider =>
      !provider.enabled || provider.apiKey == "" ||
        !(provider.id == "openai" || provider.id == "anthropic" ||
          provider.id == "gemini" || provider.id == "ollama")

/-- The llmSettings of DEFAULT_CONFIG (src/unnamed/part_004). -/
def defaultLlmSettings : LLMSettings :=
  { providers :=
      [ { id := "openai", name := "OpenAI", apiKey := "", baseUrl := none
          defaultModel := "gpt-4o", enabled := false }
      , { id := "anthropic", name := "Anthropic", apiKey := "", baseUrl := none
          defaultModel := "claude-3-5-sonnet-20240620", enabled := false }
      , { id := "gemini", name := "Google Gemini", apiKey := "", baseUrl := none
          defaultModel := "gemini-1.5-pro", enabled := false }
      , { id := "ollama", name := "Ollama (Local)", apiKey := "na"
          baseUrl := some "http://localhost:11434", defaultModel := "llama3"
          enabled := false } ]
    agentMappings :=
      [ { agentId := "orchestrator", providerId := "openai", modelId := "gpt-4o" }
      , { agentId := "po", providerId := "openai", modelId := "gpt-4o" }
      , { agentId := "architect", providerId := "openai", modelId := "gpt-4o" }
      , { agentId := "developer", providerId := "openai", modelId := "gpt-4o" } ] }

/-- WorkspaceConfig.type values (src/unnamed/part_004). -/
inductive WsType
  | local
  | remote
deriving DecidableEq, Repr

/-- WorkspaceConfig (src/unnamed/part_004); `type` is rendered as `ty`. -/
structure WorkspaceConfig where
  id : String
  title : String
  path : String
  ty : WsType
  lastAccessed : String
  createdAt : String
deriving DecidableEq, Repr

/-- addWorkspace (src/unnamed/part_004): builds the record with a freshly
generated id (crypto.randomUUID, passed in as freshId) and the current time
stamps, appends it to config.workspaces and returns it. -/
def addWorkspace (freshId now : String) (title path : String) (ty : WsType)
    (workspaces : List WorkspaceConfig) : WorkspaceConfig × List WorkspaceConfig :=
  let newWorkspace : WorkspaceConfig :=
    { id := freshId, title := title, path := path, ty := ty
      createdAt := now, lastAccessed := now }
  (newWorkspace, workspaces ++ [newWorkspace])

/-- getWorkspaceById (src/unnamed/part_004): first workspace with that id. -/
def getWorkspaceById (id : String) (workspaces : List WorkspaceConfig) :
    Option WorkspaceConfig :=
  workspaces.find? (fun w => w.id == id)

/-- removeWorkspace (src/unnamed/part_004): keep the workspaces whose id differs. -/
def removeWorkspace (id : String) (workspaces : List WorkspaceConfig) :
    List WorkspaceConfig :=
  workspaces.filter (fun w => w.id != id)

end LlmApi

namespace Studio

/-- JavaScript String.prototype.trim: strip whitespace from both ends. -/
def jsTrim (s : String) : String :=
  String.mk (((s.data.dropWhile Char.isWhitespace).reverse.dropWhile Char.isWhitespace).reverse)

/-- JavaScript String.prototype.startsWith. -/
def jsStartsWith (s pre : String) : Bool :=
  pre.data.isPrefixOf s.data

/-- Where handleSendMessage routes a submitted input (src/unnamed/part_005). -/
inductive Dispatch
  | noHandler
  | slash (command : String)
  | chat (message : String)
deriving DecidableEq, Repr

/-- The routing prefix of handleSendMessage (src/unnamed/part_005): return
early on blank input, dispatch trimmed slash commands to handleSlashCommand,
otherwise append the raw input to the chat and run the orchestrator flow. -/
def handleSendMessage (inputValue : String) : Dispatch :=
  if jsTrim inputValue = "" then .noHandler
  else if jsStartsWith (jsTrim inputValue) "/" then .slash (jsTrim inputValue)
  else .chat inputValue

end Studio

namespace Registry

/-- AgentStatus (src/unnamed/part_003, mirroring the backend agent registry
statuses): pending, running, completed, failed, cancelled. -/
inductive AgentStatus
  | pending
  | running
  | completed
  | failed
  | cancelled
deriving DecidableEq, Repr

/-- Completed, Failed and Cancelled are the terminal statuses. -/
def isTerminal : AgentStatus → Bool
  | .completed => true
  | .failed => true
  | .cancelled => true
  | _ => false

/-- Position of a status along the Pending to Running to terminal order. -/
def statusRank : AgentStatus → Nat
  | .pending => 0
  | .running => 1
  | .completed => 2
  | .failed => 2
  | .cancelled => 2

/-- Modelled from the spec: the Agent Registry update_status operation. The
backend registry is Rust code absent from src/ (src only declares the mirrored
AgentStatus type). Per the spec, status transitions are monotonic along
Pending to Running to a terminal state, and a transition into a terminal state
is final: subsequent status-update calls are rejected with an error, never
silently overwritten. -/
def updateStatus (cur next : AgentStatus) : Except String AgentStatus :=
  if isTerminal cur then
    .error "status update after a terminal state"
  else if statusRank next ≤ statusRank cur then
    .error "non-monotonic status transition"
  else
    .ok next

/-- The sequence of statuses an agent holds, starting from cur, as the
requested updates are applied in order; rejected updates leave it unchanged. -/
def trace (cur : AgentStatus) : List AgentStatus → List AgentStatus
  | [] => [cur]
  | r :: rs =>
    match updateStatus cur r with
    | .ok next => cur :: trace next rs
    | .error _ => trace cur rs

end Registry

namespace Term

/-- Parser mode: ground text, after an escape byte, or inside a CSI sequence. -/
inductive ParseMode
  | ground
  | esc
  | csi
deriving DecidableEq, Repr

/-- Modelled from the spec: the terminal-emulation state of a PTY session
(the backend parser is Rust code absent from src/). A fixed-size grid of
character cells, a cursor, and a buffer of the partially received escape
sequence carried across feed calls. -/
structure TermState where
  cols : Nat
  rows : Nat
  grid : List (List Char)
  curRow : Nat
  curCol : Nat
  mode : ParseMode
  pending : List Nat
deriving DecidableEq, Repr

/-- Write a character at the cursor and advance it, wrapping at the right
margin and clamping at the bottom row. -/
def putChar (s : TermState) (ch : Char) : TermState :=
  let row := (s.grid.getD s.curRow []).set s.curCol ch
  let grid := s.grid.set s.curRow row
  if s.curCol + 1 < s.cols then
    { s with grid := grid, curCol := s.curCol + 1 }
  else
    { s with grid := grid, curCol := 0, curRow := min (s.curRow + 1) (s.rows - 1) }

/-- Split the CSI parameter bytes at semicolons. -/
def splitParams (bs : List Nat) : List (List Nat) :=
  bs.foldr (fun b acc =>
    if b = 59 then [] :: acc
    else match acc with
      | [] => [[b]]
      | g :: gs => (b :: g) :: gs) [[]]

/-- Decimal value of one parameter group (non-digit bytes are ignored). -/
def paramValue (g : List Nat) : Nat :=
  (g.filter (fun b => 48 ≤ b ∧ b ≤ 57)).foldl (fun acc b => acc * 10 + (b - 48)) 0

/-- Parameters of a CSI sequence, given the bytes between the CSI prefix and
the final byte. -/
def csiParams (bs : List Nat) : List Nat :=
  (splitParams bs).map paramValue

/-- Apply a complete CSI sequence: cursor positioning (H), cursor movement
(A, B, C, D), erase display (J with parameter 2); unknown final bytes are
ignored, per the degrade-gracefully rule of the spec. -/
def applyCsi (s : TermState) (params : List Nat) (final : Nat) : TermState :=
  if final = 72 then
    let r := max (params.getD 0 1) 1
    let c := max (params.getD 1 1) 1
    { s with curRow := min (r - 1) (s.rows - 1), curCol := min (c - 1) (s.cols - 1) }
  else if final = 65 then
    { s with curRow := s.curRow - max (params.getD 0 1) 1 }
  else if final = 66 then
    { s with curRow := min (s.curRow + max (params.getD 0 1) 1) (s.rows - 1) }
  else if final = 67 then
    { s with curCol := min (s.curCol + max (params.getD 0 1) 1) (s.cols - 1) }
  else if final = 68 then
    { s with curCol := s.curCol - max (params.getD 0 1) 1 }
  else if final = 74 ∧ params.getD 0 0 = 2 then
    { s with grid := List.replicate s.rows (List.replicate s.cols ' ') }
  else
    s

/-- Consume one byte of PTY output. In ground mode, printable bytes are drawn,
carriage return and line feed move the cursor, and an escape byte opens a
pending sequence. A partially received sequence stays buffered in the state;
bytes that cannot continue a sequence reset the parser to its safe ground
state, treating subsequent bytes as literal text. -/
def step (s : TermState) (b : Nat) : TermState :=
  match s.mode with
  | .ground =>
    if b = 27 then { s with mode := .esc, pending := [27] }
    else if b = 13 then { s with curCol := 0 }
    else if b = 10 then { s with curRow := min (s.curRow + 1) (s.rows - 1) }
    else if 32 ≤ b ∧ b ≤ 126 then putChar s (Char.ofNat b)
    else s
  | .esc =>
    if b = 91 then { s with mode := .csi, pending := s.pending ++ [91] }
    else { s with mode := .ground, pending := [] }
  | .csi =>
    if 64 ≤ b ∧ b ≤ 126 then
      let done := applyCsi s (csiParams (s.pending.drop 2)) b
      { done with mode := .ground, pending := [] }
    else if 48 ≤ b ∧ b ≤ 63 then
      { s with pending := s.pending ++ [b] }
    else
      { s with mode := .ground, pending := [] }

/-- Feed a chunk of PTY output bytes to the parser, one byte at a time. -/
def feed (s : TermState) (bs : List Nat) : TermState :=
  bs.foldl step s

/-- A fresh blank terminal of the given size. -/
def initTerm (cols rows : Nat) : TermState :=
  { cols := cols, rows := rows
    grid := List.replicate rows (List.replicate cols ' ')
    curRow := 0, curCol := 0, mode := .ground, pending := [] }

end Term

namespace WsClient

/-- send on an open socket transmits and returns true. -/
theorem send_open (s : WSState) (c : Command) (h : s.wsOpen = true) :
    send c s = (true, { s with transmitted := s.transmitted ++ [c] }) := by
  simp [send, h]

/-- send on a closed socket with reconnect enabled queues and returns false. -/
theorem send_queued (s : WSState) (c : Command) (h1 : s.wsOpen = false)
    (h2 : s.reconnect = true) :
    send c s = (false, { s with messageQueue := s.messageQueue ++ [c] }) := by
  simp [send, h1, h2]

/-- send on a closed socket with reconnect disabled drops and returns false. -/
theorem send_dropped (s : WSState) (c : Command) (h1 : s.wsOpen = false)
    (h2 : s.reconnect = false) : send c s = (false, s) := by
  simp [send, h1, h2]

/-- While the socket stays open, a sequence of sends appends the commands to
the transmission log in call order. -/
theorem sendAll_open (cs : List Command) :
    ∀ (r : Bool) (q t : List Command),
      sendAll cs ⟨true, r, q, t⟩ = ⟨true, r, q, t ++ cs⟩ := by
  induction cs with
  | nil => intro r q t; simp [sendAll]
  | cons c cs ih =>
    intro r q t
    show sendAll cs (send c ⟨true, r, q, t⟩).2 = _
    rw [show (send c ⟨true, r, q, t⟩).2 = ⟨true, r, q, t ++ [c]⟩ from by simp [send]]
    rw [ih r q (t ++ [c])]
    simp

/-- While the socket stays closed with reconnect enabled, a sequence of sends
appends the commands to the queue in call order. -/
theorem sendAll_queued (cs : List Command) :
    ∀ (q t : List Command),
      sendAll cs ⟨false, true, q, t⟩ = ⟨false, true, q ++ cs, t⟩ := by
  induction cs with
  | nil => intro q t; simp [sendAll]
  | cons c cs ih =>
    intro q t
    show sendAll cs (send c ⟨false, true, q, t⟩).2 = _
    rw [show (send c ⟨false, true, q, t⟩).2 = ⟨false, true, q ++ [c], t⟩ from by simp [send]]
    rw [ih (q ++ [c]) t]
    simp

/-- Flushing with an open socket empties the queue onto the transmission log,
front to back, within queue-length steps. -/
theorem flush_open (q : List Command) :
    ∀ (r : Bool) (t : List Command),
      flushFuel q.length ⟨true, r, q, t⟩ = some ⟨true, r, [], t ++ q⟩ := by
  induction q with
  | nil => intro r t; simp [flushFuel]
  | cons c rest ih =>
    intro r t
    show flushFuel rest.length (send c ⟨true, r, rest, t⟩).2 = _
    rw [show (send c ⟨true, r, rest, t⟩).2 = ⟨true, r, rest, t ++ [c]⟩ from by simp [send]]
    rw [ih r (t ++ [c])]
    simp

/-- Flushing with a closed socket and reconnect disabled terminates, emptying
the queue without transmitting anything. -/
theorem flush_dropped (q : List Command) :
    ∀ (t : List Command),
      flushFuel q.length ⟨false, false, q, t⟩ = some ⟨false, false, [], t⟩ := by
  induction q with
  | nil => intro t; simp [flushFuel]
  | cons c rest ih =>
    intro t
    show flushFuel rest.length (send c ⟨false, false, rest, t⟩).2 = _
    rw [show (send c ⟨false, false, rest, t⟩).2 = ⟨false, false, rest, t⟩ from by simp [send]]
    exact ih t

/-- Flushing with a closed socket and reconnect enabled never terminates: each
iteration shifts the front command and send re-queues it at the back, so no
amount of fuel empties the queue. -/
theorem flush_diverges (n : Nat) :
    ∀ (q t : List Command), q ≠ [] →
      flushFuel n ⟨false, true, q, t⟩ = none := by
  induction n with
  | zero =>
    intro q t hq
    cases q with
    | nil => exact absurd rfl hq
    | cons c rest => simp [flushFuel]
  | succ n ih =>
    intro q t hq
    cases q with
    | nil => exact absurd rfl hq
    | cons c rest =>
      show flushFuel n (send c ⟨false, true, rest, t⟩).2 = none
      rw [show (send c ⟨false, true, rest, t⟩).2 = ⟨false, true, rest ++ [c], t⟩ from by
        simp [send]]
      exact ih (rest ++ [c]) t (by simp)

/-- C2: commands sent by one client are transmitted in send order and are
never reordered. With the connection open, a sequence of sends appends the
commands to the transmission log in call order; with the connection down and
reconnect enabled, the sends land in the queue in call order, and flushing
after reconnection transmits the whole queue front to back in enqueue order. -/
theorem per_producer_fifo (r : Bool) (q t cs : List Command) :
    (sendAll cs ⟨true, r, q, t⟩ = ⟨true, r, q, t ++ cs⟩) ∧
    (sendAll cs ⟨false, true, q, t⟩ = ⟨false, true, q ++ cs, t⟩ ∧
      flushFuel (q ++ cs).length ⟨true, true, q ++ cs, t⟩ =
        some ⟨true, true, [], t ++ (q ++ cs)⟩) :=
  ⟨sendAll_open cs r q t, sendAll_queued cs q t, flush_open (q ++ cs) true t⟩

/-- C3: send never silently discards a command. Exactly one of three outcomes
happens: the command is transmitted and send returns true, the command is
queued for delivery after reconnection and send returns false, or send leaves
the state unchanged and returns false so the producer can act on the failure. -/
theorem send_no_silent_loss (s : WSState) (c : Command) :
    ((send c s).1 = true ∧ (send c s).2.transmitted = s.transmitted ++ [c]) ∨
    ((send c s).1 = false ∧ (send c s).2.messageQueue = s.messageQueue ++ [c]) ∨
    ((send c s).1 = false ∧ (send c s).2 = s) := by
  by_cases h : s.wsOpen = true
  · left; simp [send, h]
  · replace h : s.wsOpen = false := by simpa using h
    by_cases h2 : s.reconnect = true
    · right; left; simp [send, h, h2]
    · replace h2 : s.reconnect = false := by simpa using h2
      right; right; simp [send, h, h2]

/-- C8 counterexample: with the socket not open, reconnect enabled, and one
queued command, the flushMessageQueue loop never terminates — shift removes
the front command and send pushes it back, forever. -/
theorem flush_nonterminating_cex :
    ¬ flushTerminates ⟨false, true, [Command.listWorkspaces], []⟩ := by
  intro hterm
  obtain ⟨n, u, h⟩ := hterm
  rw [flush_diverges n [Command.listWorkspaces] [] (by simp)] at h
  exact Option.noConfusion h

/-- C8 (amended): flushMessageQueue terminates and empties the queue whenever
the socket is open during the flush (transmitting everything in order), and
also when the socket is not open with reconnect disabled (discarding the
commands); but when the socket is not open and reconnect is enabled, send
re-queues every shifted command and the loop never terminates. -/
theorem flush_behavior (r : Bool) (q t : List Command) (hq : q ≠ []) :
    (flushFuel q.length ⟨true, r, q, t⟩ = some ⟨true, r, [], t ++ q⟩) ∧
    (flushFuel q.length ⟨false, false, q, t⟩ = some ⟨false, false, [], t⟩) ∧
    ¬ flushTerminates ⟨false, true, q, t⟩ := by
  refine ⟨flush_open q r t, flush_dropped q t, ?_⟩
  intro hterm
  obtain ⟨n, u, h⟩ := hterm
  rw [flush_diverges n q t hq] at h
  exact Option.noConfusion h

/-- Witness for C8 at a concrete state with a two-command queue. -/
theorem flush_behavior_witness :
    (flushFuel 2 ⟨true, false, [Command.listWorkspaces, Command.processInput "x"], []⟩ =
      some ⟨true, false, [], [Command.listWorkspaces, Command.processInput "x"]⟩) ∧
    (flushFuel 2 ⟨false, false, [Command.listWorkspaces, Command.processInput "x"], []⟩ =
      some ⟨false, false, [], []⟩) ∧
    ¬ flushTerminates ⟨false, true, [Command.listWorkspaces, Command.processInput "x"], []⟩ :=
  flush_behavior false [Command.listWorkspaces, Command.processInput "x"] [] (by simp)

/-- Witness for C2: two commands sent while disconnected land behind the one
already queued, and the flush after reconnection transmits all three in order. -/
theorem per_producer_fifo_witness :
    (sendAll [Command.processInput "a", Command.processInput "b"]
        ⟨true, true, [Command.listWorkspaces], []⟩ =
      ⟨true, true, [Command.listWorkspaces],
        [Command.processInput "a", Command.processInput "b"]⟩) ∧
    (sendAll [Command.processInput "a", Command.processInput "b"]
        ⟨false, true, [Command.listWorkspaces], []⟩ =
      ⟨false, true, [Command.listWorkspaces, Command.processInput "a",
        Command.processInput "b"], []⟩ ∧
      flushFuel 3 ⟨true, true, [Command.listWorkspaces, Command.processInput "a",
          Command.processInput "b"], []⟩ =
        some ⟨true, true, [], [Command.listWorkspaces, Command.processInput "a",
          Command.processInput "b"]⟩) :=
  per_producer_fifo true [Command.listWorkspaces] []
    [Command.processInput "a", Command.processInput "b"]

/-- Attempt counter and option fields of schedN. -/
theorem schedN_fields (k : Nat) :
    ∀ s : ReconnState, s.reconnectAttempts = 0 → k ≤ s.maxReconnectAttempts →
      schedN s k = ⟨k, s.maxReconnectAttempts, s.reconnectInterval⟩ := by
  induction k with
  | zero =>
    intro s h0 _
    cases s
    simp only at h0
    simp [schedN, h0]
  | succ k ih =>
    intro s h0 hk
    show (scheduleReconnect (schedN s k)).2 = _
    rw [ih s h0 (Nat.le_of_succ_le hk)]
    have hlt : k < s.maxReconnectAttempts := hk
    simp [scheduleReconnect, Nat.not_le.mpr hlt]

/-- C9: scheduleReconnect does nothing once the attempt counter has reached
maxReconnectAttempts; starting from a zero counter, the attempt scheduled
after k prior ones is delayed by reconnectInterval * 2 ^ k milliseconds
(exponential backoff, so the k-th scheduled attempt, counted from one, is
delayed by reconnectInterval times 2 to the power k minus 1); the counter
never exceeds the limit; and a successful open resets the counter to zero. -/
theorem reconnect_backoff (s : ReconnState) (k : Nat) :
    (s.maxReconnectAttempts ≤ s.reconnectAttempts → scheduleReconnect s = (none, s)) ∧
    (s.reconnectAttempts = 0 → k < s.maxReconnectAttempts →
      (scheduleReconnect (schedN s k)).1 = some (s.reconnectInterval * 2 ^ k)) ∧
    (s.reconnectAttempts ≤ s.maxReconnectAttempts →
      (scheduleReconnect s).2.reconnectAttempts ≤ s.maxReconnectAttempts) ∧
    (onOpenReset s).reconnectAttempts = 0 := by
    refine ⟨?_, ?_, ?_, rfl⟩
    · intro h
      simp [scheduleReconnect, h]
    · intro h0 hk
      rw [schedN_fields k s h0 (Nat.le_of_lt hk)]
      simp [scheduleReconnect, Nat.not_le.mpr hk]
    · intro h
      by_cases hlt : s.maxReconnectAttempts ≤ s.reconnectAttempts
      · simp [scheduleReconnect, hlt, h]
      · simp only [scheduleReconnect, if_neg hlt]
        exact Nat.not_le.mp hlt

/-- Witness for C9 with the default options (interval 2000 ms, limit 5): the
third scheduled attempt is delayed by 8000 ms and the counter stays capped. -/
theorem reconnect_backoff_witness :
    (scheduleReconnect (schedN ⟨0, 5, 2000⟩ 2)).1 = some (2000 * 2 ^ 2) ∧
    (scheduleReconnect ⟨5, 5, 2000⟩ = (none, ⟨5, 5, 2000⟩)) ∧
    (scheduleReconnect ⟨0, 5, 2000⟩).2.reconnectAttempts ≤ 5 ∧
    (onOpenReset ⟨3, 5, 2000⟩).reconnectAttempts = 0 :=
  ⟨(reconnect_backoff ⟨0, 5, 2000⟩ 2).2.1 rfl (by decide),
   (reconnect_backoff ⟨5, 5, 2000⟩ 0).1 (by decide),
   (reconnect_backoff ⟨0, 5, 2000⟩ 0).2.2.1 (by decide),
   (reconnect_backoff ⟨3, 5, 2000⟩ 0).2.2.2⟩

end WsClient

namespace Actions

/-- C4: a failing backend call never propagates out of the agent and terminal
actions; each converts it into a result value. orchestrateAction falls back to
nextAgent user with the error message as the task, developerAction falls back
to an empty operations list, and runCommandAction falls back to empty stdout,
the error message as stderr, and exit code 1. (The embedded actions are total
functions into their result types, so no exception reaches the caller.) -/
theorem action_error_containment (e : String) (he : e ≠ "") :
    orchestrateAction (Except.error e) =
      { nextAgent := "user", reasoning := "Error occurred during orchestration"
        task := some e } ∧
    developerAction (Except.error e) =
      { reasoning := "Failed to execute developer agent", operations := []
        message := e } ∧
    runCommandAction (Except.error e) =
      { stdout := "", stderr := e, exitCode := 1 } := by
  refine ⟨?_, ?_, ?_⟩ <;>
    simp [orchestrateAction, orchFallback, developerAction, devFallback,
      runCommandAction, jsOr, he]

/-- Witness for C4 at the concrete backend error message boom. -/
theorem action_error_containment_witness :
    orchestrateAction (Except.error "boom") =
      { nextAgent := "user", reasoning := "Error occurred during orchestration"
        task := some "boom" } ∧
    developerAction (Except.error "boom") =
      { reasoning := "Failed to execute developer agent", operations := []
        message := "boom" } ∧
    runCommandAction (Except.error "boom") =
      { stdout := "", stderr := "boom", exitCode := 1 } :=
  action_error_containment "boom" (by decide)

end Actions

namespace Studio

/-- C6: every submitted input is routed to exactly one handler by its leading
character: blank input (empty after trimming) reaches no handler; an input
whose trimmed form starts with a slash goes to the slash-command handler with
the trimmed text; any other nonblank input goes to the chat/orchestrator path
with the raw text. The slash handler is reached if and only if the trimmed
input starts with a slash. -/
theorem input_routing (input : String) :
    (jsTrim input = "" → handleSendMessage input = .noHandler) ∧
    (jsTrim input ≠ "" → jsStartsWith (jsTrim input) "/" = true →
      handleSendMessage input = .slash (jsTrim input)) ∧
    (jsTrim input ≠ "" → jsStartsWith (jsTrim input) "/" = false →
      handleSendMessage input = .chat input) ∧
    ((∃ c, handleSendMessage input = .slash c) ↔
      (jsTrim input ≠ "" ∧ jsStartsWith (jsTrim input) "/" = true)) := by
  refine ⟨?_, ?_, ?_, ?_⟩
  · intro h; simp [handleSendMessage, h]
  · intro h1 h2; simp [handleSendMessage, h1, h2]
  · intro h1 h2; simp [handleSendMessage, h1, h2]
  · constructor
    · rintro ⟨c, hc⟩
      by_cases h1 : jsTrim input = ""
      · simp [handleSendMessage, h1] at hc
      · by_cases h2 : jsStartsWith (jsTrim input) "/" = true
        · exact ⟨h1, h2⟩
        · replace h2 : jsStartsWith (jsTrim input) "/" = false := by simpa using h2
          simp [handleSendMessage, h1, h2] at hc
    · rintro ⟨h1, h2⟩
      exact ⟨jsTrim input, by simp [handleSendMessage, h1, h2]⟩

/-- Witness for C6: a slash command with surrounding whitespace is trimmed and
routed to the slash handler; plain text goes to the chat path; blank input
goes nowhere. -/
theorem input_routing_witness :
    handleSendMessage " /help " = .slash "/help" ∧
    handleSendMessage "hello world" = .chat "hello world" ∧
    handleSendMessage "   " = .noHandler :=
  ⟨(input_routing " /help ").2.1 (by decide) (by decide),
   (input_routing "hello world").2.2.1 (by decide) (by decide),
   (input_routing "   ").1 (by decide)⟩

end Studio

namespace Registry

/-- An accepted update strictly increases the status rank and returns the
requested status. -/
theorem updateStatus_ok (cur r next : AgentStatus)
    (h : updateStatus cur r = .ok next) :
    next = r ∧ statusRank cur < statusRank r := by
  unfold updateStatus at h
  by_cases h1 : isTerminal cur = true
  · simp [h1] at h
  · simp only [h1, Bool.false_eq_true, if_false] at h
    split at h
    · exact Except.noConfusion h
    · rename_i h2
      exact ⟨(Except.ok.inj h).symm, Nat.not_le.mp h2⟩

/-- A trace always starts with the status it is started from. -/
theorem trace_head (rs : List AgentStatus) :
    ∀ cur : AgentStatus, ∃ t, trace cur rs = cur :: t := by
  induction rs with
  | nil => intro cur; exact ⟨[], rfl⟩
  | cons r rs ih =>
    intro cur
    cases h : updateStatus cur r with
    | ok next =>
      refine ⟨trace next rs, ?_⟩
      simp [trace, h]
    | error msg =>
      obtain ⟨t, ht⟩ := ih cur
      refine ⟨t, ?_⟩
      simp [trace, h, ht]

/-- Adjacent statuses in a trace have strictly increasing rank. -/
theorem trace_adjacent (rs : List AgentStatus) :
    ∀ (cur : AgentStatus) (l r : List AgentStatus) (a b : AgentStatus),
      trace cur rs = l ++ a :: b :: r → statusRank a < statusRank b := by
  induction rs with
  | nil =>
    intro cur l r a b h
    simp only [trace] at h
    have hlen := congrArg List.length h
    simp only [List.length_cons, List.length_append, List.length_nil] at hlen
    omega
  | cons req rs ih =>
    intro cur l r a b h
    cases hs : updateStatus cur req with
    | error msg =>
      rw [show trace cur (req :: rs) = trace cur rs from by simp [trace, hs]] at h
      exact ih cur l r a b h
    | ok next =>
      rw [show trace cur (req :: rs) = cur :: trace next rs from by simp [trace, hs]] at h
      cases l with
      | nil =>
        simp only [List.nil_append, List.cons.injEq] at h
        obtain ⟨rfl, h2⟩ := h
        obtain ⟨t, ht⟩ := trace_head rs next
        rw [ht] at h2
        obtain ⟨hb, -⟩ := List.cons.injEq .. |>.mp h2
        obtain ⟨hnr, hrank⟩ := updateStatus_ok cur req next hs
        rw [← hb, hnr]
        exact hrank
      | cons x l =>
        simp only [List.cons_append, List.cons.injEq] at h
        exact ih next l r a b h.2

/-- C1: a status update on an agent whose status is terminal (Completed,
Failed or Cancelled) is rejected with an error, never silently applied; and
every status sequence an agent goes through, starting from Pending, is
strictly increasing along Pending, Running, terminal — so it is a subsequence
of Pending then Running then exactly one terminal state, and no status
follows a terminal one. -/
theorem registry_terminal_final (cur next : AgentStatus)
    (reqs l r : List AgentStatus) (a b : AgentStatus) :
    (isTerminal cur = true → ∃ e, updateStatus cur next = Except.error e) ∧
    (trace .pending reqs = l ++ a :: b :: r →
      statusRank a < statusRank b ∧ isTerminal a = false) := by
  constructor
  · intro h
    exact ⟨"status update after a terminal state", by simp [updateStatus, h]⟩
  · intro h
    have h1 := trace_adjacent reqs .pending l r a b h
    refine ⟨h1, ?_⟩
    cases a <;> cases b <;> first | rfl | exact absurd h1 (by decide)

/-- Witness for C1: updating a Completed agent is rejected, and in the trace
Pending, Running, Completed produced by the requests Running, Completed,
Running (the last being rejected), Pending precedes Running with lower rank. -/
theorem registry_terminal_final_witness :
    (∃ e, updateStatus .completed .running = Except.error e) ∧
    (statusRank .pending < statusRank .running ∧ isTerminal .pending = false) :=
  ⟨(registry_terminal_final .completed .running
      [.running, .completed, .running] [] [.completed] .pending .running).1 rfl,
   (registry_terminal_final .completed .running
      [.running, .completed, .running] [] [.completed] .pending .running).2 (by decide)⟩

end Registry

namespace Term

/-- C7: split-invariance of the terminal-emulation parser. Feeding any byte
sequence of PTY output in two chunks, split at any point — including inside an
escape sequence, which stays buffered in the parser state between the calls —
produces exactly the same final state as feeding it unbroken. -/
theorem parser_split_invariance (s : TermState) (bs : List Nat) (i : Nat) :
    feed (feed s (bs.take i)) (bs.drop i) = feed s bs := by
  conv_rhs => rw [← List.take_append_drop i bs]
  simp only [feed, List.foldl_append]

end Term

namespace LlmApi

/-- C10: workspace persistence round-trips. addWorkspace returns the record
built from the fresh id and appends it to the stored list; getWorkspaceById
with that id then returns exactly that record; after removeWorkspace with that
id the list is back to the original, so the same lookup returns none and every
other id resolves exactly as before. -/
theorem workspace_roundtrip (freshId now title path : String) (ty : WsType)
    (ws : List WorkspaceConfig) (hfresh : ∀ w ∈ ws, w.id ≠ freshId) :
    getWorkspaceById freshId (addWorkspace freshId now title path ty ws).2 =
      some (addWorkspace freshId now title path ty ws).1 ∧
    removeWorkspace freshId (addWorkspace freshId now title path ty ws).2 = ws ∧
    getWorkspaceById freshId
        (removeWorkspace freshId (addWorkspace freshId now title path ty ws).2) = none ∧
    (∀ otherId, otherId ≠ freshId →
      getWorkspaceById otherId
          (removeWorkspace freshId (addWorkspace freshId now title path ty ws).2) =
        getWorkspaceById otherId ws) := by
  have hnone : ws.find? (fun w => w.id == freshId) = none :=
    List.find?_eq_none.mpr (fun w hw => by simp [hfresh w hw])
  have hrem : removeWorkspace freshId (addWorkspace freshId now title path ty ws).2 = ws := by
    show (ws ++ [(addWorkspace freshId now title path ty ws).1]).filter
        (fun w => w.id != freshId) = ws
    rw [List.filter_append]
    have h1 : ws.filter (fun w => w.id != freshId) = ws :=
      List.filter_eq_self.mpr (fun w hw => by simp [hfresh w hw])
    have h2 : [(addWorkspace freshId now title path ty ws).1].filter
        (fun w => w.id != freshId) = [] := by
      simp [addWorkspace]
    rw [h1, h2, List.append_nil]
  refine ⟨?_, hrem, ?_, ?_⟩
  · show (ws ++ [(addWorkspace freshId now title path ty ws).1]).find?
        (fun w => w.id == freshId) = some (addWorkspace freshId now title path ty ws).1
    rw [List.find?_append, hnone]
    simp [addWorkspace]
  · rw [hrem]
    exact hnone
  · intro otherId hother
    rw [hrem]

/-- Witness for C10: adding a workspace with fresh id b next to an existing
one with id a, then removing it, restores the original store. -/
theorem workspace_roundtrip_witness :
    getWorkspaceById "b"
        (addWorkspace "b" "2024-01-01" "t" "/p" .local
          [⟨"a", "t0", "/p0", .local, "2024-01-01", "2024-01-01"⟩]).2 =
      some (addWorkspace "b" "2024-01-01" "t" "/p" .local
          [⟨"a", "t0", "/p0", .local, "2024-01-01", "2024-01-01"⟩]).1 ∧
    removeWorkspace "b"
        (addWorkspace "b" "2024-01-01" "t" "/p" .local
          [⟨"a", "t0", "/p0", .local, "2024-01-01", "2024-01-01"⟩]).2 =
      [⟨"a", "t0", "/p0", .local, "2024-01-01", "2024-01-01"⟩] ∧
    getWorkspaceById "b"
        (removeWorkspace "b"
          (addWorkspace "b" "2024-01-01" "t" "/p" .local
            [⟨"a", "t0", "/p0", .local, "2024-01-01", "2024-01-01"⟩]).2) = none ∧
    (∀ otherId, otherId ≠ "b" →
      getWorkspaceById otherId
          (removeWorkspace "b"
            (addWorkspace "b" "2024-01-01" "t" "/p" .local
              [⟨"a", "t0", "/p0", .local, "2024-01-01", "2024-01-01"⟩]).2) =
        getWorkspaceById otherId
          [⟨"a", "t0", "/p0", .local, "2024-01-01", "2024-01-01"⟩]) :=
  workspace_roundtrip "b" "2024-01-01" "t" "/p" .local
    [⟨"a", "t0", "/p0", .local, "2024-01-01", "2024-01-01"⟩]
    (by intro w hw; simp at hw; simp [hw])

/-- C5: chatCompletion resolves the call through the configuration table and
errors out — making no provider call — exactly when the agent has no mapping,
or the mapped provider entry is absent, disabled, or has an empty API key, or
the provider id is not one of openai, anthropic, gemini, ollama; otherwise it
dispatches to the provider named by the mapped entry, using the mapping model
id, or the provider default model when the mapping model id is empty. -/
theorem chatCompletion_config_dispatch (s : LLMSettings) (a : String) :
    ((∃ e, chatCompletion s a = Except.error e) ↔ rejectsPerSpec s a = true) ∧
    (∀ m p, s.agentMappings.find? (fun x => x.agentId == a) = some m →
      s.providers.find? (fun x => x.id == m.providerId) = some p →
      rejectsPerSpec s a = false →
      ∃ call, chatCompletion s a = Except.ok call ∧
        call.provider = p.id ∧ p.id = m.providerId ∧
        call.model = (if m.modelId == "" then p.defaultModel else m.modelId)) := by
  constructor
  · cases hm : s.agentMappings.find? (fun x => x.agentId == a) with
    | none => simp [chatCompletion, rejectsPerSpec, hm]
    | some m =>
      cases hp : s.providers.find? (fun x => x.id == m.providerId) with
      | none => simp [chatCompletion, rejectsPerSpec, hm, hp]
      | some p =>
        by_cases hc : (!p.enabled || p.apiKey == "") = true
        · simp [chatCompletion, rejectsPerSpec, hm, hp, hc]
        · rw [Bool.not_eq_true] at hc
          have he : p.enabled = true := by
            rcases Bool.or_eq_false_iff.mp hc with ⟨h1, -⟩
            simpa using h1
          have hk : (p.apiKey == "") = false := (Bool.or_eq_false_iff.mp hc).2
          by_cases h1 : p.id = "openai"
          · simp [chatCompletion, rejectsPerSpec, hm, hp, he, hk, h1]
          · by_cases h2 : p.id = "anthropic"
            · simp [chatCompletion, rejectsPerSpec, hm, hp, he, hk, h2]
            · by_cases h3 : p.id = "gemini"
              · simp [chatCompletion, rejectsPerSpec, hm, hp, he, hk, h3]
              · by_cases h4 : p.id = "ollama"
                · simp [chatCompletion, rejectsPerSpec, hm, hp, he, hk, h4]
                · simp [chatCompletion, rejectsPerSpec, hm, hp, he, hk, h1, h2, h3, h4]
  · intro m p hm hp hrej
    simp only [rejectsPerSpec, hm, hp, Bool.or_eq_false_iff, Bool.not_eq_false,
      Bool.not_eq_true] at hrej
    obtain ⟨⟨he, hk⟩, hid⟩ := hrej
    have hpm : p.id = m.providerId := by
      have := List.find?_some hp
      simpa using this
    have hid' : p.id = "openai" ∨ p.id = "anthropic" ∨ p.id = "gemini" ∨
        p.id = "ollama" := by
      have h := hid
      cases hb : (p.id == "openai" || p.id == "anthropic" || p.id == "gemini" ||
          p.id == "ollama") with
      | false => rw [hb] at h; simp at h
      | true => simp only [Bool.or_eq_true, beq_iff_eq] at hb; tauto
    rcases hid' with h | h | h | h
    · exact ⟨.openai p.apiKey (if m.modelId == "" then p.defaultModel else m.modelId)
          p.baseUrl,
        by simp [chatCompletion, hm, hp, he, hk, h],
        by simp [ProviderCall.provider, h], hpm, rfl⟩
    · exact ⟨.anthropic p.apiKey (if m.modelId == "" then p.defaultModel else m.modelId),
        by simp [chatCompletion, hm, hp, he, hk, h],
        by simp [ProviderCall.provider, h], hpm, rfl⟩
    · exact ⟨.gemini p.apiKey (if m.modelId == "" then p.defaultModel else m.modelId),
        by simp [chatCompletion, hm, hp, he, hk, h],
        by simp [ProviderCall.provider, h], hpm, rfl⟩
    · exact ⟨.ollama (p.baseUrl.getD "http://localhost:11434")
          (if m.modelId == "" then p.defaultModel else m.modelId),
        by simp [chatCompletion, hm, hp, he, hk, h],
        by simp [ProviderCall.provider, h], hpm, rfl⟩

/-- Witness for C5: with the default config (openai mapped but disabled, empty
key) chatCompletion errors; with anthropic enabled and an empty mapping model
id it dispatches to anthropic with the provider default model. -/
theorem chatCompletion_config_dispatch_witness :
    (∃ e, chatCompletion defaultLlmSettings "orchestrator" = Except.error e) ∧
    (∃ call,
      chatCompletion
          ⟨[⟨"anthropic", "Anthropic", "k", none, "claude-3-5-sonnet-20240620", true⟩],
           [⟨"orchestrator", "anthropic", ""⟩]⟩ "orchestrator" = Except.ok call ∧
      call.provider = "anthropic" ∧ ("anthropic" : String) = "anthropic" ∧
      call.model = "claude-3-5-sonnet-20240620") :=
  ⟨(chatCompletion_config_dispatch defaultLlmSettings "orchestrator").1.mpr (by decide),
   (chatCompletion_config_dispatch
      ⟨[⟨"anthropic", "Anthropic", "k", none, "claude-3-5-sonnet-20240620", true⟩],
       [⟨"orchestrator", "anthropic", ""⟩]⟩ "orchestrator").2
     ⟨"orchestrator", "anthropic", ""⟩
     ⟨"anthropic", "Anthropic", "k", none, "claude-3-5-sonnet-20240620", true⟩
     rfl rfl rfl⟩

end LlmApi


